import Mathlib

/-!
Shallow embedding of the query validation and sanitization pipeline of the
text-db-query-ai repository: the `QuerySanitizer` (src/security/sanitizer.ts),
the `SecurityValidator` (src/security/validator.ts) and the metadata helpers
of the `QueryGenerator` (src/generator/query-generator.ts).

Queries are JavaScript strings; we model them as lists of characters
(`Str`).  The JavaScript regular expressions used by the source are small
and fixed, and each one is modelled by an explicit scanning function whose
semantics (leftmost match, case-insensitive flag, `.` not matching a
newline, global non-overlapping matching) mirrors the regex it stands for.
-/

namespace TextDbQueryAI

/-- A JavaScript string, as a list of characters. -/
abbrev Str := List Char

/-- `String.prototype.toUpperCase` (the queries are ASCII). -/
def upper (s : Str) : Str := s.map Char.toUpper

/-- `String.prototype.toLowerCase` (the queries are ASCII). -/
def lower (s : Str) : Str := s.map Char.toLower

/-- `String.prototype.trim`: whitespace removed from both ends. -/
def trimStr (s : Str) : Str :=
  ((s.dropWhile Char.isWhitespace).reverse.dropWhile Char.isWhitespace).reverse

/-- `p` is a prefix of `s` (JavaScript `String.prototype.startsWith`). -/
def hasPfx : Str → Str → Bool
  | [], _ => true
  | _ :: _, [] => false
  | a :: p, b :: s => a == b && hasPfx p s

/-- `p` is a suffix of `s` (JavaScript `String.prototype.endsWith`). -/
def hasSfx (p s : Str) : Bool := hasPfx p.reverse s.reverse

/-- `s.includes(p)`: `p` occurs as a contiguous substring of `s`. -/
def occursIn (p : Str) : Str → Bool
  | [] => hasPfx p []
  | s@(_ :: t) => hasPfx p s || occursIn p t

/-- `Array.prototype.join(', ')`. -/
def joinComma : List Str → Str
  | [] => []
  | [x] => x
  | x :: xs => x ++ (", ".data ++ joinComma xs)

/-- The decimal digit character for `n % 10`. -/
def digitChar : Nat → Char
  | 0 => '0' | 1 => '1' | 2 => '2' | 3 => '3' | 4 => '4'
  | 5 => '5' | 6 => '6' | 7 => '7' | 8 => '8' | _ => '9'

/-- Decimal rendering, on fuel (the fuel is structural so that the kernel
can evaluate it; `natDigits` supplies enough). -/
def natDigitsAux : Nat → Nat → List Char
  | 0, _ => []
  | fuel + 1, n =>
    if n < 10 then [digitChar n]
    else natDigitsAux fuel (n / 10) ++ [digitChar (n % 10)]

/-- Decimal rendering of a natural number, as JavaScript renders a number
into a template literal. -/
def natDigits (n : Nat) : List Char := natDigitsAux (n + 1) n

/-- Decimal rendering of an integer. -/
def intDigits (n : Int) : List Char :=
  if n < 0 then '-' :: natDigits n.natAbs else natDigits n.toNat

/-- `parseInt(ds, 10)` on a run of decimal digits. -/
def digitsToNat (ds : Str) : Nat :=
  ds.foldl (fun acc c => 10 * acc + (c.toNat - 48)) 0

/-- One attempt of `/LIMIT\s+(\d+)/i` at the start of `s`: the five letters
LIMIT (case-insensitively), one or more whitespace characters, then the
maximal run of decimal digits, whose numeric value is returned. -/
def limitValHere (s : Str) : Option Nat :=
  match s with
  | a :: b :: c :: d :: e :: rest =>
    if a.toUpper == 'L' && b.toUpper == 'I' && c.toUpper == 'M' &&
        d.toUpper == 'I' && e.toUpper == 'T' then
      if rest.takeWhile Char.isWhitespace ≠ [] then
        let ds := (rest.dropWhile Char.isWhitespace).takeWhile Char.isDigit
        if ds ≠ [] then some (digitsToNat ds) else none
      else none
    else none
  | _ => none

/-- `query.match(/LIMIT\s+(\d+)/i)`: the value captured at the leftmost
match, if any.  `/LIMIT\s+\d+/i.test(query)` is `(findLimit query).isSome`. -/
def findLimit : Str → Option Nat
  | [] => none
  | s@(_ :: t) =>
    match limitValHere s with
    | some v => some v
    | none => findLimit t

/-- `/p1.*p2/` can finish from here: `p2` is reachable without crossing a
character that `.` does not match (newline, carriage return, line/paragraph
separator). -/
def reachAfterDot (p : Str) : Str → Bool
  | [] => false
  | s@(c :: t) =>
    hasPfx p s ||
      (!(c == '\n' || c == '\r' || c == '\u2028' || c == '\u2029') &&
        reachAfterDot p t)

/-- `/p1.*p2/.test s`: somewhere in `s`, `p1` followed (with `.`-matchable
characters between) by `p2`. -/
def dotStarHit (p1 p2 : Str) : Str → Bool
  | [] => false
  | s@(_ :: t) =>
    (hasPfx p1 s && reachAfterDot p2 (s.drop p1.length)) || dotStarHit p1 p2 t

/-- `/p[\s\S]*p/.test s`: two occurrences of `p`, the second starting at or
after the end of the first (`[\s\S]` also matches newlines). -/
def twoHit (p : Str) : Str → Bool
  | [] => false
  | s@(_ :: t) => (hasPfx p s && occursIn p (s.drop p.length)) || twoHit p t

/-- Occurrence counting with an explicit skip counter: after a match the
scan resumes past the matched text (`skip` characters are consumed without
being match starts), which keeps the recursion structural. -/
def countOccurGo (p : Str) : Nat → Str → Nat
  | _, [] => 0
  | skip + 1, _ :: t => countOccurGo p skip t
  | 0, s@(_ :: t) =>
    if hasPfx p s then 1 + countOccurGo p (p.length - 1) t
    else countOccurGo p 0 t

/-- Number of occurrences `query.match(/p/g)` returns: leftmost,
non-overlapping. -/
def countOccur (p s : Str) : Nat := countOccurGo p 0 s

/-! ## QuerySanitizer (src/security/sanitizer.ts) -/

/-- `escapeValue`: `value.replace(/'/g, "''")` — every single quote doubled. -/
def escapeValue (value : Str) : Str :=
  value.flatMap fun c => if c == '\'' then [c, c] else [c]

/-- `addLimitIfMissing`: appends `` LIMIT ${limit}`` when `/LIMIT\s+\d+/i`
does not match the query. -/
def addLimitIfMissing (query : Str) (limit : Nat) : Str :=
  if (findLimit query).isSome then query
  else query ++ " LIMIT ".data ++ natDigits limit

/-- The characters before the first occurrence of a closing code fence
(three backticks); `none` when there is no fence.  This is the interior a
lazy `([\s\S]*?)``` ` capture reads. -/
def takeUntilFence : Str → Option Str
  | [] => none
  | s@(c :: t) =>
    if hasPfx "```".data s then some []
    else (takeUntilFence t).map (c :: ·)

/-- Leftmost match of ``/opening([\s\S]*?)```/``: the first position where
`opening` occurs and a closing fence follows, with the minimal interior. -/
def extractTagged (opening : Str) : Str → Option Str
  | [] => none
  | s@(_ :: t) =>
    if hasPfx opening s then
      match takeUntilFence (s.drop opening.length) with
      | some interior => some interior
      | none => extractTagged opening t
    else extractTagged opening t

/-- `extractFromMarkdown`: the trimmed interior of the first ```` ```sql ````
block if any, else of the first ```` ``` ````-and-newline block, else the
text unchanged. -/
def extractFromMarkdown (text : Str) : Str :=
  match extractTagged "```sql\n".data text with
  | some interior => trimStr interior
  | none =>
    match extractTagged "```\n".data text with
    | some interior => trimStr interior
    | none => text

/-- The result record of `validateSQLSyntax`. -/
structure SyntaxCheck where
  valid : Bool
  error : Option Str := none
deriving Repr, DecidableEq

/-- The keyword list of `validateSQLSyntax`. -/
def validStarts : List Str :=
  ["SELECT".data, "INSERT".data, "UPDATE".data, "DELETE".data, "WITH".data]

/-- The running parenthesis counter of `validateSQLSyntax`: `none` when the
count goes negative, otherwise the final count. -/
def parenScan : Str → Int → Option Int
  | [], n => some n
  | c :: t, n =>
    let m := if c == '(' then n + 1 else if c == ')' then n - 1 else n
    if m < 0 then none else parenScan t m

/-- The number of occurrences of character `c` in `s`. -/
def countChar (c : Char) (s : Str) : Nat := (s.filter (· == c)).length

/-- `validateSQLSyntax`: keyword prefix on the uppercased trimmed query,
balanced parentheses under a running counter, even counts of single and
double quotes. -/
def validateSQLSyntax (query : Str) : SyntaxCheck :=
  let trimmed := upper (trimStr query)
  if !(validStarts.any fun k => hasPfx k trimmed) then
    { valid := false
      error := some ("Query must start with one of: ".data ++ joinComma validStarts) }
  else
    match parenScan query 0 with
    | none => { valid := false, error := some "Unbalanced parentheses".data }
    | some n =>
      if n ≠ 0 then { valid := false, error := some "Unbalanced parentheses".data }
      else if countChar '\'' query % 2 ≠ 0 then
        { valid := false, error := some "Unbalanced single quotes".data }
      else if countChar '"' query % 2 ≠ 0 then
        { valid := false, error := some "Unbalanced double quotes".data }
      else { valid := true, error := none }

/-! ## SecurityValidator (src/security/validator.ts) -/

/-- The `QueryOperation` union type of src/types.ts. -/
inductive QueryOperation
  | SELECT
  | INSERT
  | UPDATE
  | DELETE
deriving Repr, DecidableEq

/-- The name of an operation, as interpolated into messages. -/
def opName : QueryOperation → Str
  | .SELECT => "SELECT".data
  | .INSERT => "INSERT".data
  | .UPDATE => "UPDATE".data
  | .DELETE => "DELETE".data

/-- A `userId: string | number` value. -/
inductive UserIdValue
  | str : Str → UserIdValue
  | num : Int → UserIdValue

/-- The `UserContext` interface of src/types.ts. -/
structure UserContext where
  userId : UserIdValue
  role : Str
  permissions : Option (List Str) := none

/-- The `SecurityConfig` interface of src/types.ts: every field optional.
The custom validator is an async predicate that may throw; we model it as a
function into `Except` whose `error` case carries the thrown error's
message. -/
structure SecurityConfig where
  allowedOperations : Option (List QueryOperation) := none
  allowedTables : Option (List Str) := none
  restrictedColumns : Option (List Str) := none
  maxRowLimit : Option Nat := none
  requireUserContext : Option Bool := none
  enableRowLevelSecurity : Option Bool := none
  customValidator : Option (Str → Option UserContext → Except Str Bool) := none

/-- The `SecurityValidator` constructor: spread the defaults, then the
supplied configuration (a supplied field overrides its default; the custom
validator has no default). -/
def constructorConfig (config : SecurityConfig) : SecurityConfig :=
  { allowedOperations := some (config.allowedOperations.getD [.SELECT])
    allowedTables := some (config.allowedTables.getD [])
    restrictedColumns := some (config.restrictedColumns.getD [])
    maxRowLimit := some (config.maxRowLimit.getD 1000)
    requireUserContext := some (config.requireUserContext.getD true)
    enableRowLevelSecurity := some (config.enableRowLevelSecurity.getD true)
    customValidator := config.customValidator }

/-- `detectOperation`: match the uppercased trimmed prefix. -/
def detectOperation (query : Str) : Option QueryOperation :=
  let normalizedQuery := upper (trimStr query)
  if hasPfx "SELECT".data normalizedQuery then some .SELECT
  else if hasPfx "INSERT".data normalizedQuery then some .INSERT
  else if hasPfx "UPDATE".data normalizedQuery then some .UPDATE
  else if hasPfx "DELETE".data normalizedQuery then some .DELETE
  else none

/-- `detectDangerousPatterns`: the multiple-statement indicator, then the
fixed pattern list tested case-insensitively against the uppercased query
(each regex hit pushes the pattern's name). -/
def detectDangerousPatterns (query : Str) : List Str :=
  let nq := upper query
  (if occursIn ";".data query && !(hasSfx ";".data (trimStr query)) then
    ["Multiple statements detected".data] else [])
  ++ (if occursIn "EXEC".data nq then ["EXEC".data] else [])
  ++ (if occursIn "EXECUTE".data nq then ["EXECUTE".data] else [])
  ++ (if occursIn "XP_CMDSHELL".data nq then ["xp_cmdshell".data] else [])
  ++ (if occursIn "SP_EXECUTESQL".data nq then ["sp_executesql".data] else [])
  ++ (if dotStarHit "UNION".data "SELECT".data nq then ["UNION.*SELECT".data] else [])
  ++ (if occursIn "--".data nq then ["--".data] else [])
  ++ (if occursIn "/*".data nq then ["/*".data] else [])
  ++ (if occursIn "DROP".data nq then ["DROP".data] else [])
  ++ (if occursIn "TRUNCATE".data nq then ["TRUNCATE".data] else [])
  ++ (if occursIn "ALTER".data nq then ["ALTER".data] else [])
  ++ (if occursIn "CREATE".data nq then ["CREATE".data] else [])
  ++ (if occursIn "GRANT".data nq then ["GRANT".data] else [])
  ++ (if occursIn "REVOKE".data nq then ["REVOKE".data] else [])

/-- `findRestrictedColumns`: case-insensitive substring search of each
deny-listed column name in the whole query. -/
def findRestrictedColumns (restrictedColumns : List Str) (query : Str) : List Str :=
  restrictedColumns.filter fun column => occursIn (lower column) (lower query)

/-- `[a-z_]`, the first character of a table-name capture. -/
def identCharStart (c : Char) : Bool := ('a' ≤ c && c ≤ 'z') || c == '_'

/-- `[a-z0-9_]`, the later characters of a table-name capture. -/
def identCharCont (c : Char) : Bool := identCharStart c || ('0' ≤ c && c ≤ '9')

/-- The `\s+([a-z_][a-z0-9_]*)` tail of the table-name regexes, attempted on
the text `r` that follows the keyword: one or more whitespace characters,
then the maximal identifier run, which is captured. -/
def identCapture (r : Str) : Option Str :=
  if r.takeWhile Char.isWhitespace ≠ [] then
    match r.dropWhile Char.isWhitespace with
    | [] => none
    | d :: _ =>
      if identCharStart d then
        some ((r.dropWhile Char.isWhitespace).takeWhile identCharCont)
      else none
  else none

/-- Global matching with an explicit skip counter: after a full match of
`kw`, its whitespace run and its captured identifier, the scan resumes past
the matched text, which keeps the recursion structural. -/
def scanKwAllGo (kw : Str) : Nat → Str → List Str
  | _, [] => []
  | skip + 1, _ :: t => scanKwAllGo kw skip t
  | 0, s@(_ :: t) =>
    if hasPfx kw s then
      match identCapture (s.drop kw.length) with
      | some ident =>
        ident :: scanKwAllGo kw
          (kw.length + ((s.drop kw.length).takeWhile Char.isWhitespace).length
            + ident.length - 1) t
      | none => scanKwAllGo kw 0 t
    else scanKwAllGo kw 0 t

/-- All matches of `/kw\s+([a-z_][a-z0-9_]*)/g`: leftmost, non-overlapping,
each contributing its captured identifier. -/
def scanKwAll (kw s : Str) : List Str := scanKwAllGo kw 0 s

/-- The first match of `/kw\s+([a-z_][a-z0-9_]*)/` (no global flag): its
captured identifier. -/
def scanKwFirst (kw : Str) : Str → Option Str
  | [] => none
  | s@(_ :: t) =>
    if hasPfx kw s then
      match identCapture (s.drop kw.length) with
      | some ident => some ident
      | none => scanKwFirst kw t
    else scanKwFirst kw t

/-- `new Set(...)` insertion order, with the already-seen elements carried
along: keep the first occurrence of each element. -/
def dedupFirstGo (seen : List Str) : List Str → List Str
  | [] => []
  | x :: xs =>
    if seen.contains x then dedupFirstGo seen xs
    else x :: dedupFirstGo (x :: seen) xs

/-- `new Set(...)` insertion order: keep the first occurrence of each
element. -/
def dedupFirst (l : List Str) : List Str := dedupFirstGo [] l

/-- `extractTableNames`: tokens after FROM and JOIN (all matches) and after
INTO and UPDATE (first match), over the lowercased query, deduplicated. -/
def extractTableNames (query : Str) : List Str :=
  let nq := lower query
  dedupFirst
    (scanKwAll "from".data nq ++ scanKwAll "join".data nq
      ++ (scanKwFirst "into".data nq).toList
      ++ (scanKwFirst "update".data nq).toList)

/-- The record `validate` resolves to. -/
structure ValidationResult where
  valid : Bool
  errors : List Str
  warnings : List Str
deriving Repr, DecidableEq

/-- `maxRowLimit` as interpolated into the missing-LIMIT warning. -/
def showMaxRowLimit : Option Nat → Str
  | some m => natDigits m
  | none => "undefined".data

/-- `SecurityValidator.validate`: the user-context and operation
short-circuits, then the accumulated operation, dangerous-pattern,
restricted-column, table, row-limit and custom-validator checks. -/
def validate (cfg : SecurityConfig) (query : Str) (userContext : Option UserContext) :
    ValidationResult :=
  if cfg.requireUserContext.getD false && userContext.isNone then
    { valid := false
      errors := ["User context is required but not provided".data]
      warnings := [] }
  else
    match detectOperation query with
    | none =>
      { valid := false
        errors := ["Could not determine query operation".data]
        warnings := [] }
    | some operation =>
      let opErrors :=
        match cfg.allowedOperations with
        | some ops =>
          if !(ops.contains operation) then
            ["Operation ".data ++ opName operation
              ++ " is not allowed. Allowed operations: ".data
              ++ joinComma (ops.map opName)]
          else []
        | none => []
      let dangerousPatterns := detectDangerousPatterns query
      let dangerErrors :=
        if dangerousPatterns ≠ [] then
          ["Query contains dangerous patterns: ".data ++ joinComma dangerousPatterns]
        else []
      let restrictedErrors :=
        match cfg.restrictedColumns with
        | some cols =>
          let found := findRestrictedColumns cols query
          if found ≠ [] then
            ["Query accesses restricted columns: ".data ++ joinComma found]
          else []
        | none => []
      let tableErrors :=
        match cfg.allowedTables with
        | some tabs =>
          if tabs ≠ [] then
            let unauthorized := (extractTableNames query).filter fun t => !(tabs.contains t)
            if unauthorized ≠ [] then
              ["Query accesses unauthorized tables: ".data ++ joinComma unauthorized]
            else []
          else []
        | none => []
      let limitChecks : List Str × List Str :=
        if operation = .SELECT then
          match findLimit query with
          | none =>
            ([], ["Query does not have a LIMIT clause. Maximum ".data
                    ++ showMaxRowLimit cfg.maxRowLimit
                    ++ " rows will be enforced.".data])
          | some limit =>
            match cfg.maxRowLimit with
            | some m =>
              if limit > m then
                (["LIMIT ".data ++ natDigits limit
                    ++ " exceeds maximum allowed limit of ".data ++ natDigits m], [])
              else ([], [])
            | none => ([], [])
        else ([], [])
      let customErrors :=
        match cfg.customValidator with
        | some f =>
          match f query userContext with
          | .ok true => []
          | .ok false => ["Custom validation failed".data]
          | .error msg => ["Custom validation error: ".data ++ msg]
        | none => []
      let errors := opErrors ++ dangerErrors ++ restrictedErrors ++ tableErrors
        ++ limitChecks.1 ++ customErrors
      { valid := errors.isEmpty, errors := errors, warnings := limitChecks.2 }

/-- The inlined `userId` of the row-level-security filter: a string id is
wrapped in single quotes verbatim, a numeric id rendered in decimal. -/
def renderUserId : UserIdValue → Str
  | .str s => ['\''] ++ s ++ ['\'']
  | .num n => intDigits n

/-- JavaScript `GetSubstitution` for a replacement string under a regex
with no capture groups (the source's `/ORDER BY/i` and `/LIMIT/i`): `$$`
yields a dollar sign, `$&` the matched slice, `` $` `` the text before the
match and `$'` the text after it; every other `$` sequence (`$1`, `$<`, a
trailing `$`, ...) stays literal, exactly as JavaScript treats it when the
pattern has no capture groups. -/
def dollarSubst (matched before after : Str) : Str → Str
  | [] => []
  | [c] => [c]
  | c :: d :: rest =>
    if c = '$' then
      if d = '$' then '$' :: dollarSubst matched before after rest
      else if d = '&' then matched ++ dollarSubst matched before after rest
      else if d = '`' then before ++ dollarSubst matched before after rest
      else if d = '\'' then after ++ dollarSubst matched before after rest
      else c :: dollarSubst matched before after (d :: rest)
    else c :: dollarSubst matched before after (d :: rest)

/-- The index of the leftmost case-insensitive occurrence of the uppercase
literal `pat`. -/
def findCIIdx (pat : Str) : Str → Option Nat
  | [] => none
  | s@(_ :: t) =>
    if hasPfx pat (upper s) then some 0
    else (findCIIdx pat t).map (· + 1)

/-- `query.replace(/pat/i, repl)` for an uppercase literal `pat`: the
leftmost case-insensitive occurrence is replaced by `repl` with JavaScript
`$`-substitution applied — the matched slice (in its original case) and
the text before and after the match can be interpolated by `$&`, `` $` ``
and `$'` in the replacement string. -/
def replaceFirstCI (pat repl s : Str) : Str :=
  match findCIIdx pat s with
  | none => s
  | some i =>
    s.take i
      ++ (dollarSubst ((s.drop i).take pat.length) (s.take i)
            ((s.drop i).drop pat.length) repl
          ++ (s.drop i).drop pat.length)

/-- `SecurityValidator.addRowLevelSecurity`: inject a `user_id` equality
filter for SELECT/UPDATE/DELETE queries that do not already match
`/WHERE.*user_id/i`, before ORDER BY, else before LIMIT, else at the end. -/
def addRowLevelSecurity (cfg : SecurityConfig) (query : Str)
    (userContext : Option UserContext) : Str :=
  if !(cfg.enableRowLevelSecurity.getD false) || userContext.isNone then query
  else
    match userContext with
    | none => query
    | some ctx =>
      let operation := detectOperation query
      if operation ≠ some .SELECT ∧ operation ≠ some .UPDATE ∧
          operation ≠ some .DELETE then query
      else if !(dotStarHit "WHERE".data "USER_ID".data (upper query)) then
        let hasWhere := occursIn "WHERE".data (upper query)
        let connector := if hasWhere then " AND".data else " WHERE".data
        let userIdFilter := connector ++ " user_id = ".data ++ renderUserId ctx.userId
        if occursIn "ORDER BY".data (upper query) then
          replaceFirstCI "ORDER BY".data (userIdFilter ++ " ORDER BY".data) query
        else if occursIn "LIMIT".data (upper query) then
          replaceFirstCI "LIMIT".data (userIdFilter ++ " LIMIT".data) query
        else query ++ userIdFilter
      else query

/-! ## QueryGenerator metadata (src/generator/query-generator.ts) -/

/-- The complexity tiers. -/
inductive Complexity
  | low
  | medium
  | high
deriving Repr, DecidableEq

/-- `estimateComplexity`: the additive indicator score and its mapping to a
tier. -/
def estimateComplexity (query : Str) : Complexity :=
  let normalized := lower query
  let complexity := 0
  let complexity := if occursIn "join".data normalized then complexity + 1 else complexity
  let complexity :=
    if occursIn "subquery".data normalized || twoHit "SELECT".data (upper query) then
      complexity + 2
    else complexity
  let complexity := if occursIn "group by".data normalized then complexity + 1 else complexity
  let complexity := if occursIn "having".data normalized then complexity + 1 else complexity
  let complexity := if occursIn "union".data normalized then complexity + 2 else complexity
  let complexity := if countOccur "join".data normalized > 2 then complexity + 2 else complexity
  if complexity == 0 then .low
  else if complexity ≤ 2 then .medium
  else .high

/-! ## Specification-side predicates

These name the conditions the specification's sentences speak about; the
claim theorems relate them to the embedded source functions. -/

/-- The uppercased trimmed query begins with one of the five syntax
keywords. -/
def beginsWithQueryKeyword (q : Str) : Bool :=
  validStarts.any fun k => hasPfx k (upper (trimStr q))

/-- Balanced parentheses under the linear running-counter scan: the count
never goes negative and ends at zero. -/
def parensBalanced (q : Str) : Bool := parenScan q 0 == some 0

/-- The count of character `c` in the query is even. -/
def quoteCountEven (c : Char) (q : Str) : Bool := countChar c q % 2 == 0

/-- The query contains a semicolon somewhere other than the very end of its
trimmed text. -/
def hasSemicolonNotAtEnd (q : Str) : Bool :=
  occursIn ";".data (trimStr q).dropLast

/-- A JOIN keyword is present. -/
def hasJoinKeyword (q : Str) : Bool := occursIn "join".data (lower q)

/-- The nested-SELECT indicator of `estimateComplexity`: the literal word
`subquery`, or two SELECT occurrences. -/
def hasNestedSelect (q : Str) : Bool :=
  occursIn "subquery".data (lower q) || twoHit "SELECT".data (upper q)

/-- GROUP BY is present. -/
def hasGroupBy (q : Str) : Bool := occursIn "group by".data (lower q)

/-- HAVING is present. -/
def hasHaving (q : Str) : Bool := occursIn "having".data (lower q)

/-- UNION is present. -/
def hasUnion (q : Str) : Bool := occursIn "union".data (lower q)

/-- More than two JOIN occurrences are counted. -/
def hasManyJoins (q : Str) : Bool := decide (countOccur "join".data (lower q) > 2)

/-- The additive complexity score the specification describes. -/
def complexityScore (q : Str) : Nat :=
  (if hasJoinKeyword q then 1 else 0)
  + (if hasNestedSelect q then 2 else 0)
  + (if hasGroupBy q then 1 else 0)
  + (if hasHaving q then 1 else 0)
  + (if hasUnion q then 2 else 0)
  + (if hasManyJoins q then 2 else 0)

/-- The tier mapping the specification describes: 0 is low, 1–2 medium,
3 and above high. -/
def complexityTier (score : Nat) : Complexity :=
  if score = 0 then .low else if score ≤ 2 then .medium else .high

/-! ## Supporting lemmas -/

theorem digitChar_isDigit (n : Nat) : (digitChar n).isDigit = true := by
  match n with
  | 0 => decide
  | 1 => decide
  | 2 => decide
  | 3 => decide
  | 4 => decide
  | 5 => decide
  | 6 => decide
  | 7 => decide
  | 8 => decide
  | _ + 9 => rfl

theorem natDigitsAux_head (fuel n : Nat) (h : n < fuel) :
    ∃ c cs, natDigitsAux fuel n = c :: cs ∧ c.isDigit = true := by
  induction fuel generalizing n with
  | zero => omega
  | succ fuel ih =>
    by_cases h10 : n < 10
    · exact ⟨digitChar n, [], by simp [natDigitsAux, h10], digitChar_isDigit n⟩
    · have hdiv : n / 10 < fuel := by
        have := Nat.div_lt_self (show 0 < n by omega) (show 1 < 10 by omega)
        omega
      obtain ⟨c, cs, hce, hd⟩ := ih (n / 10) hdiv
      exact ⟨c, cs ++ [digitChar (n % 10)], by simp [natDigitsAux, h10, hce], hd⟩

theorem natDigits_head (n : Nat) :
    ∃ c cs, natDigits n = c :: cs ∧ c.isDigit = true :=
  natDigitsAux_head (n + 1) n (by omega)

theorem isDigit_not_isWhitespace (c : Char) (h : c.isDigit = true) :
    c.isWhitespace = false := by
  rcases hc : c.isWhitespace with _ | _
  · rfl
  · exfalso
    have hd := hc
    simp [Char.isWhitespace] at hd
    rcases hd with ((rfl | rfl) | rfl) | rfl <;> exact absurd h (by decide)

theorem findLimit_append_isSome (p q : Str) (h : (findLimit q).isSome = true) :
    (findLimit (p ++ q)).isSome = true := by
  induction p with
  | nil => simpa using h
  | cons c t ih =>
    rcases hv : limitValHere (c :: (t ++ q)) with _ | v
    · simpa [findLimit, hv] using ih
    · simp [findLimit, hv]

theorem findLimit_appended_clause (c0 : Char) (h0 : c0.isDigit = true) (rest : Str) :
    (findLimit (" LIMIT ".data ++ (c0 :: rest))).isSome = true := by
  have hdata : " LIMIT ".data ++ (c0 :: rest)
      = ' ' :: 'L' :: 'I' :: 'M' :: 'I' :: 'T' :: ' ' :: c0 :: rest := rfl
  rw [hdata]
  have h1 : limitValHere (' ' :: 'L' :: 'I' :: 'M' :: 'I' :: 'T' :: ' ' :: c0 :: rest)
      = none := by
    have hcond : (Char.toUpper ' ' == 'L') = false := by decide
    simp [limitValHere, hcond]
  have hws : c0.isWhitespace = false := isDigit_not_isWhitespace c0 h0
  have h2 : (limitValHere ('L' :: 'I' :: 'M' :: 'I' :: 'T' :: ' ' :: c0 :: rest)).isSome
      = true := by
    have hcond : (Char.toUpper 'L' == 'L' && Char.toUpper 'I' == 'I' &&
        Char.toUpper 'M' == 'M' && Char.toUpper 'I' == 'I' &&
        Char.toUpper 'T' == 'T') = true := by decide
    simp [limitValHere, hcond, hws, h0]
  rcases hv : limitValHere ('L' :: 'I' :: 'M' :: 'I' :: 'T' :: ' ' :: c0 :: rest)
    with _ | v
  · rw [hv] at h2; simp at h2
  · simp [findLimit, h1, hv]

theorem findLimit_after_addLimit (q : Str) (n : Nat) :
    (findLimit (q ++ " LIMIT ".data ++ natDigits n)).isSome = true := by
  obtain ⟨c, cs, hce, hd⟩ := natDigits_head n
  rw [List.append_assoc, hce]
  exact findLimit_append_isSome q _ (findLimit_appended_clause c hd cs)

theorem addLimitIfMissing_of_present (q : Str) (n : Nat)
    (h : (findLimit q).isSome = true) : addLimitIfMissing q n = q := by
  simp [addLimitIfMissing, h]

theorem hasPfx_append_self (p r : Str) : hasPfx p (p ++ r) = true := by
  induction p with
  | nil => rfl
  | cons c t ih => simp [hasPfx, ih]

theorem dollarSubst_no_dollar (m b a repl : Str) (h : '$' ∉ repl) :
    dollarSubst m b a repl = repl := by
  induction repl with
  | nil => rfl
  | cons c rest ih =>
    have hc : c ≠ '$' := fun hcc => h (by rw [hcc]; exact List.mem_cons_self _ _)
    cases rest with
    | nil => rfl
    | cons d rest2 =>
      have hrest : '$' ∉ d :: rest2 := fun hm => h (List.mem_cons_of_mem c hm)
      rw [dollarSubst, if_neg hc]
      rw [ih hrest]

theorem not_mem_append (c : Char) (x y : Str) (hx : c ∉ x) (hy : c ∉ y) :
    c ∉ x ++ y := fun h => (List.mem_append.mp h).elim hx hy

theorem occursIn_append_left (p x r : Str) (h : occursIn p r = true) :
    occursIn p (x ++ r) = true := by
  induction x with
  | nil => simpa using h
  | cons c t ih => simp [occursIn, ih]

theorem occursIn_self_append (p b : Str) : occursIn p (p ++ b) = true := by
  cases p with
  | nil => cases b <;> simp [occursIn, hasPfx]
  | cons c t =>
    have h : hasPfx (c :: t) (c :: (t ++ b)) = true := hasPfx_append_self (c :: t) b
    simp [occursIn, h]

theorem occursIn_of_eq_parts (p x u v : Str) (hx : x = u ++ p ++ v) :
    occursIn p x = true := by
  subst hx
  rw [List.append_assoc]
  exact occursIn_append_left p u (p ++ v) (occursIn_self_append p v)

theorem findCIIdx_isSome_of_occursIn (pat s : Str) (hne : pat ≠ [])
    (h : occursIn pat (upper s) = true) : (findCIIdx pat s).isSome = true := by
  induction s with
  | nil =>
    exfalso
    rcases pat with _ | ⟨c, t⟩
    · exact hne rfl
    · exact absurd h (by simp [upper, occursIn, hasPfx])
  | cons c t ih =>
    rcases hpf : hasPfx pat (upper (c :: t)) with _ | _
    · have hup : upper (c :: t) = Char.toUpper c :: upper t := rfl
      have h2 : (hasPfx pat (upper (c :: t)) || occursIn pat (upper t)) = true := by
        rw [hup] at h ⊢
        exact h
      rw [hpf] at h2
      simp only [Bool.false_or] at h2
      have hs := ih h2
      rcases hfi : findCIIdx pat t with _ | i
      · rw [hfi] at hs; simp at hs
      · simp [findCIIdx, hpf, hfi]
    · simp [findCIIdx, hpf]

/-! ## Claim theorems -/

/-- C8: `addLimitIfMissing` is idempotent — applying it twice with the same
limit yields the same result as applying it once — and it appends the limit
clause only when no limit clause (per the detection regex `/LIMIT\s+\d+/i`)
is already present: a query with a limit clause is returned unchanged, and
one without gets exactly `` LIMIT n`` appended. -/
theorem addLimitIfMissing_idempotent (q : Str) (n : Nat) :
    addLimitIfMissing (addLimitIfMissing q n) n = addLimitIfMissing q n
    ∧ ((findLimit q).isSome = true → addLimitIfMissing q n = q)
    ∧ ((findLimit q).isSome = false →
        addLimitIfMissing q n = q ++ " LIMIT ".data ++ natDigits n) := by
  rcases hq : (findLimit q).isSome with _ | _
  · have h1 : addLimitIfMissing q n = q ++ " LIMIT ".data ++ natDigits n := by
      simp [addLimitIfMissing, hq]
    have h2 : (findLimit (q ++ " LIMIT ".data ++ natDigits n)).isSome = true :=
      findLimit_after_addLimit q n
    refine ⟨?_, by simp [hq], fun _ => h1⟩
    rw [h1]
    exact addLimitIfMissing_of_present _ n h2
  · have h1 : addLimitIfMissing q n = q := by simp [addLimitIfMissing, hq]
    refine ⟨?_, fun _ => h1, by simp [hq]⟩
    rw [h1, h1]

/-- C4: `validateSQLSyntax` accepts exactly the queries whose uppercased
trimmed text begins with SELECT, INSERT, UPDATE, DELETE or WITH, whose
parentheses balance under the running-counter scan (never negative, zero at
the end) and whose single- and double-quote counts are both even; and every
rejection carries the error naming the failed condition. -/
theorem validateSQLSyntax_characterization (q : Str) :
    ((validateSQLSyntax q).valid
      = (beginsWithQueryKeyword q && parensBalanced q
          && quoteCountEven '\'' q && quoteCountEven '"' q))
    ∧ ((validateSQLSyntax q).valid = false →
        ∃ msg, (validateSQLSyntax q).error = some msg ∧
          ((beginsWithQueryKeyword q = false
              ∧ msg = "Query must start with one of: SELECT, INSERT, UPDATE, DELETE, WITH".data)
            ∨ (parensBalanced q = false ∧ msg = "Unbalanced parentheses".data)
            ∨ (quoteCountEven '\'' q = false ∧ msg = "Unbalanced single quotes".data)
            ∨ (quoteCountEven '"' q = false ∧ msg = "Unbalanced double quotes".data))) := by
  have hmsg : ("Query must start with one of: ".data ++ joinComma validStarts)
      = "Query must start with one of: SELECT, INSERT, UPDATE, DELETE, WITH".data := by
    decide
  by_cases h1 : (validStarts.any fun k => hasPfx k (upper (trimStr q))) = true
  · rcases hp : parenScan q 0 with _ | n
    · constructor
      · simp [validateSQLSyntax, beginsWithQueryKeyword, parensBalanced, quoteCountEven,
          h1, hp]
      · intro _
        refine ⟨"Unbalanced parentheses".data, ?_, Or.inr (Or.inl ⟨?_, rfl⟩)⟩
        · simp [validateSQLSyntax, h1, hp]
        · simp [parensBalanced, hp]
    · by_cases hn : n = 0
      · subst hn
        by_cases hsq : countChar '\'' q % 2 = 0
        · by_cases hdq : countChar '"' q % 2 = 0
          · constructor
            · simp [validateSQLSyntax, beginsWithQueryKeyword, parensBalanced,
                quoteCountEven, h1, hp, hsq, hdq]
            · intro hfalse
              have : (validateSQLSyntax q).valid = true := by
                simp [validateSQLSyntax, h1, hp, hsq, hdq]
              rw [this] at hfalse
              exact absurd hfalse (by simp)
          · constructor
            · simp [validateSQLSyntax, beginsWithQueryKeyword, parensBalanced,
                quoteCountEven, h1, hp, hsq, hdq]
            · intro _
              refine ⟨"Unbalanced double quotes".data, ?_,
                Or.inr (Or.inr (Or.inr ⟨?_, rfl⟩))⟩
              · simp [validateSQLSyntax, h1, hp, hsq, hdq]
              · simp [quoteCountEven, hdq]
        · constructor
          · simp [validateSQLSyntax, beginsWithQueryKeyword, parensBalanced,
              quoteCountEven, h1, hp, hsq]
          · intro _
            refine ⟨"Unbalanced single quotes".data, ?_,
              Or.inr (Or.inr (Or.inl ⟨?_, rfl⟩))⟩
            · simp [validateSQLSyntax, h1, hp, hsq]
            · simp [quoteCountEven, hsq]
      · constructor
        · simp [validateSQLSyntax, beginsWithQueryKeyword, parensBalanced,
            quoteCountEven, h1, hp, hn]
        · intro _
          refine ⟨"Unbalanced parentheses".data, ?_, Or.inr (Or.inl ⟨?_, rfl⟩)⟩
          · simp [validateSQLSyntax, h1, hp, hn]
          · simp [parensBalanced, hp, hn]
  · simp only [Bool.not_eq_true] at h1
    constructor
    · simp [validateSQLSyntax, beginsWithQueryKeyword, h1]
    · intro _
      refine ⟨"Query must start with one of: SELECT, INSERT, UPDATE, DELETE, WITH".data,
        ?_, Or.inl ⟨?_, rfl⟩⟩
      · simp [validateSQLSyntax, h1, hmsg]
      · simp [beginsWithQueryKeyword, h1]

/-- C9: `estimateComplexity` is the additive heuristic the specification
describes — one point for a JOIN keyword, two for a nested SELECT
indicator, one each for GROUP BY and HAVING, two for UNION and two more
when more than two JOIN occurrences are counted — mapped to tiers with 0
low, 1–2 medium, and 3 or more high. -/
theorem estimateComplexity_additive (q : Str) :
    estimateComplexity q = complexityTier (complexityScore q) := by
  unfold estimateComplexity complexityTier complexityScore
  simp only [hasJoinKeyword, hasNestedSelect, hasGroupBy, hasHaving, hasUnion, hasManyJoins]
  by_cases h1 : occursIn "join".data (lower q) = true <;>
    by_cases h2 : (occursIn "subquery".data (lower q)
      || twoHit "SELECT".data (upper q)) = true <;>
    by_cases h3 : occursIn "group by".data (lower q) = true <;>
    by_cases h4 : occursIn "having".data (lower q) = true <;>
    by_cases h5 : occursIn "union".data (lower q) = true <;>
    by_cases h6 : countOccur "join".data (lower q) > 2 <;>
    simp [h1, h2, h3, h4, h5, h6]

/-- C3: whenever the uppercased trimmed query does not begin with SELECT,
INSERT, UPDATE or DELETE, and a user context is supplied whenever the
configuration requires one, `validate` rejects immediately with the single
could-not-determine-operation error and accumulates no other error and no
warning. -/
theorem validate_unknown_operation (cfg : SecurityConfig) (q : Str)
    (ctx : Option UserContext)
    (hctx : cfg.requireUserContext.getD false = true → ctx.isSome = true)
    (hop : (["SELECT".data, "INSERT".data, "UPDATE".data, "DELETE".data].all
        fun k => !(hasPfx k (upper (trimStr q)))) = true) :
    validate cfg q ctx =
      { valid := false, errors := ["Could not determine query operation".data],
        warnings := [] } := by
  have hdet : detectOperation q = none := by
    simp only [List.all_cons, List.all_nil, Bool.and_eq_true, Bool.not_eq_true',
      Bool.and_true] at hop
    obtain ⟨hS, hI, hU, hD⟩ := hop
    simp [detectOperation, hS, hI, hU, hD]
  have hcond : (cfg.requireUserContext.getD false && ctx.isNone) = false := by
    cases hreq : cfg.requireUserContext.getD false with
    | false => simp
    | true =>
      have hs := hctx hreq
      rcases ctx with _ | c
      · simp at hs
      · simp
  simp [validate, hcond, hdet]

/-- C3 witness: `validate("DROP TABLE users")` with a user context supplied
is rejected with exactly the could-not-determine-operation error. -/
theorem validate_unknown_operation_witness :
    validate (constructorConfig {}) "DROP TABLE users".data
        (some { userId := .num 123, role := "admin".data }) =
      { valid := false, errors := ["Could not determine query operation".data],
        warnings := [] } :=
  validate_unknown_operation _ _ _ (fun _ => rfl) (by decide)

/-- C5: with `maxRowLimit = 100` and a user context supplied, a SELECT with
LIMIT 500 is invalid with the error citing both 500 and 100, the same query
with LIMIT 50 is valid, the query without a LIMIT clause is valid with the
enforcement warning; and in general a `validate` result is valid exactly
when its error list is empty, so warnings never affect validity. -/
theorem validate_row_limit_behavior :
    (validate (constructorConfig { maxRowLimit := some 100 })
        "SELECT * FROM users LIMIT 500".data
        (some { userId := .num 1, role := "user".data })
      = { valid := false,
          errors := ["LIMIT 500 exceeds maximum allowed limit of 100".data],
          warnings := [] })
    ∧ (validate (constructorConfig { maxRowLimit := some 100 })
        "SELECT * FROM users LIMIT 50".data
        (some { userId := .num 1, role := "user".data })
      = { valid := true, errors := [], warnings := [] })
    ∧ (validate (constructorConfig { maxRowLimit := some 100 })
        "SELECT * FROM users".data
        (some { userId := .num 1, role := "user".data })
      = { valid := true, errors := [],
          warnings :=
            ["Query does not have a LIMIT clause. Maximum 100 rows will be enforced.".data] })
    ∧ (∀ (cfg : SecurityConfig) (q : Str) (ctx : Option UserContext),
        (validate cfg q ctx).valid = (validate cfg q ctx).errors.isEmpty) := by
  refine ⟨by decide, by decide, by decide, ?_⟩
  intro cfg q ctx
  by_cases h : (cfg.requireUserContext.getD false && ctx.isNone) = true
  · simp [validate, h]
  · simp only [Bool.not_eq_true] at h
    rcases hop : detectOperation q with _ | op
    · simp [validate, h, hop]
    · simp [validate, h, hop]

/-- C10: the `SecurityValidator` constructor fills every unsupplied policy
field with its fixed default — SELECT-only operations, empty table
allow-list, empty column deny-list, row limit 1000, user context required,
row-level security enabled — a supplied field overrides its default, and
under the all-defaults configuration validation demands a user context and
permits only SELECT. -/
theorem constructorConfig_defaults :
    (constructorConfig {} =
      { allowedOperations := some [.SELECT], allowedTables := some [],
        restrictedColumns := some [], maxRowLimit := some 1000,
        requireUserContext := some true, enableRowLevelSecurity := some true,
        customValidator := none })
    ∧ (∀ c : SecurityConfig,
        (constructorConfig c).allowedOperations
            = some (c.allowedOperations.getD [.SELECT])
          ∧ (constructorConfig c).allowedTables = some (c.allowedTables.getD [])
          ∧ (constructorConfig c).restrictedColumns
            = some (c.restrictedColumns.getD [])
          ∧ (constructorConfig c).maxRowLimit = some (c.maxRowLimit.getD 1000)
          ∧ (constructorConfig c).requireUserContext
            = some (c.requireUserContext.getD true)
          ∧ (constructorConfig c).enableRowLevelSecurity
            = some (c.enableRowLevelSecurity.getD true)
          ∧ (constructorConfig c).customValidator = c.customValidator)
    ∧ (validate (constructorConfig {}) "SELECT * FROM users LIMIT 5".data none).errors
      = ["User context is required but not provided".data]
    ∧ (validate (constructorConfig {}) "UPDATE users SET a = 1 WHERE id = 2".data
        (some { userId := .num 7, role := "user".data })).errors
      = ["Operation UPDATE is not allowed. Allowed operations: SELECT".data] := by
  refine ⟨rfl, ?_, by decide, by decide⟩
  intro c
  exact ⟨rfl, rfl, rfl, rfl, rfl, rfl, rfl⟩

/-- C2 counterexample: the query `SELECT * FROM users; DROP TABLE users;`
contains a semicolon that is not at the very end of its trimmed text, yet
`validate` (with a user context) reports only the DROP pattern — the
multiple-statement pattern is not mentioned, because the code additionally
requires the trimmed query not to end with a semicolon. -/
theorem multi_statement_counterexample :
    hasSemicolonNotAtEnd "SELECT * FROM users; DROP TABLE users;".data = true
    ∧ (validate (constructorConfig {}) "SELECT * FROM users; DROP TABLE users;".data
        (some { userId := .num 1, role := "user".data })).errors
      = ["Query contains dangerous patterns: DROP".data]
    ∧ occursIn "Multiple statements".data
        "Query contains dangerous patterns: DROP".data = false := by
  exact ⟨by decide, by decide, by decide⟩

/-- C2 (amended): the multiple-statement pattern is reported for every
query that contains a semicolon and whose trimmed text does not end with a
semicolon; in particular `validate("SELECT * FROM users; DROP TABLE
users")` with a user context is invalid and its combined dangerous-pattern
error mentions multiple statements. -/
theorem multi_statement_detection :
    (∀ q : Str, occursIn ";".data q = true → hasSfx ";".data (trimStr q) = false →
      "Multiple statements detected".data ∈ detectDangerousPatterns q)
    ∧ (validate (constructorConfig {}) "SELECT * FROM users; DROP TABLE users".data
        (some { userId := .num 1, role := "user".data })).valid = false
    ∧ ("Query contains dangerous patterns: Multiple statements detected, DROP".data
        ∈ (validate (constructorConfig {}) "SELECT * FROM users; DROP TABLE users".data
            (some { userId := .num 1, role := "user".data })).errors)
    ∧ occursIn "Multiple statements".data
        "Query contains dangerous patterns: Multiple statements detected, DROP".data
      = true := by
  refine ⟨?_, by decide, by decide, by decide⟩
  intro q h1 h2
  simp [detectDangerousPatterns, h1, h2]

/-- C6: when a custom validator is configured and the user-context and
operation short-circuits do not fire, a `false` return accumulates the
custom-validation-failed error and a thrown failure is converted into a
normal validation error string carrying the thrown message — `validate`
still returns an ordinary result (the embedding of `validate` is a total
function; the `catch` in the source is the `Except.error` branch here), so
the failure is never propagated. -/
theorem validate_custom_validator (cfg : SecurityConfig)
    (f : Str → Option UserContext → Except Str Bool) (q : Str)
    (ctx : Option UserContext) (op : QueryOperation)
    (hcv : cfg.customValidator = some f)
    (hctx : (cfg.requireUserContext.getD false && ctx.isNone) = false)
    (hop : detectOperation q = some op) :
    (f q ctx = .ok false →
      "Custom validation failed".data ∈ (validate cfg q ctx).errors)
    ∧ (∀ msg, f q ctx = .error msg →
        ("Custom validation error: ".data ++ msg) ∈ (validate cfg q ctx).errors) := by
  constructor
  · intro hf
    simp [validate, hctx, hop, hcv, hf]
  · intro msg hf
    simp [validate, hctx, hop, hcv, hf]

/-- C6 witness: a custom validator that throws `boom` yields a result whose
errors contain the converted custom-validation error. -/
theorem validate_custom_validator_witness :
    ("Custom validation error: boom".data) ∈
      (validate (constructorConfig
          { customValidator := some fun _ _ => Except.error "boom".data })
        "SELECT * FROM users LIMIT 5".data
        (some { userId := .num 1, role := "user".data })).errors := by
  have h := validate_custom_validator
    (constructorConfig { customValidator := some fun _ _ => Except.error "boom".data })
    (fun _ _ => Except.error "boom".data)
    "SELECT * FROM users LIMIT 5".data
    (some { userId := .num 1, role := "user".data })
    QueryOperation.SELECT rfl rfl (by decide)
  have hmem := h.2 "boom".data rfl
  have heq : "Custom validation error: ".data ++ "boom".data
      = "Custom validation error: boom".data := by decide
  rw [heq] at hmem
  exact hmem

/-- C1 counterexample: for the string user id `O'Brien` the injected
literal is the id verbatim between single quotes — the embedded quote is
not doubled, so the result differs from what quote-escaping via
`escapeValue` would produce. -/
theorem rls_no_escaping_counterexample :
    addRowLevelSecurity (constructorConfig {}) "SELECT * FROM orders".data
        (some { userId := .str "O'Brien".data, role := "user".data })
      = "SELECT * FROM orders WHERE user_id = 'O'Brien'".data
    ∧ ("SELECT * FROM orders WHERE user_id = 'O'Brien'".data
        ≠ "SELECT * FROM orders WHERE user_id = ".data
            ++ ['\''] ++ escapeValue "O'Brien".data ++ ['\'']) := by
  exact ⟨by decide, by decide⟩

/-- C1 (amended): for a string user id, `addRowLevelSecurity` under the
default configuration injects `user_id = '<id>'` with the id inlined
between single quotes and no quote-escaping applied.  When the query has
no ORDER BY and no LIMIT clause the filter is appended and the id appears
verbatim for every id; when the filter is spliced before an ORDER BY or
LIMIT clause it passes through JavaScript `String.replace`, whose
`$`-substitution leaves dollar-free ids untouched, so for every id free of
`$` the single-quoted id appears verbatim in the result in all three
placements; in particular for the id `abc-123` the result contains
`user_id = 'abc-123'`. -/
theorem rls_string_inlined (q s role : Str)
    (hop : detectOperation q = some .SELECT ∨ detectOperation q = some .UPDATE
      ∨ detectOperation q = some .DELETE)
    (hdup : dotStarHit "WHERE".data "USER_ID".data (upper q) = false) :
    (occursIn "ORDER BY".data (upper q) = false →
      occursIn "LIMIT".data (upper q) = false →
      addRowLevelSecurity (constructorConfig {}) q
          (some { userId := .str s, role := role })
        = q ++ ((if occursIn "WHERE".data (upper q) then " AND".data else " WHERE".data)
            ++ (" user_id = ".data ++ ('\'' :: (s ++ [ '\'' ])))))
    ∧ ('$' ∉ s →
      occursIn (" user_id = ".data ++ ('\'' :: (s ++ [ '\'' ])))
        (addRowLevelSecurity (constructorConfig {}) q
          (some { userId := .str s, role := role })) = true)
    ∧ occursIn "user_id = 'abc-123'".data
        (addRowLevelSecurity (constructorConfig {}) "SELECT * FROM orders".data
          (some { userId := .str "abc-123".data, role := "user".data })) = true := by
  refine ⟨?_, ?_, by decide⟩
  · intro hord hlim
    rcases hop with h | h | h <;>
      simp [addRowLevelSecurity, constructorConfig, h, hdup, hord, hlim, renderUserId,
        List.append_assoc]
  · intro hds
    rcases hop with h | h | h
    all_goals (
      rcases hob : occursIn "ORDER BY".data (upper q) with _ | _
      · rcases hlm : occursIn "LIMIT".data (upper q) with _ | _
        · -- appended at the end
          apply occursIn_of_eq_parts _ _
            (q ++ (if occursIn "WHERE".data (upper q) then " AND".data
              else " WHERE".data))
            []
          simp [addRowLevelSecurity, constructorConfig, h, hdup, hob, hlm, renderUserId,
            List.append_assoc]
        · -- splice before LIMIT
          have hfi := findCIIdx_isSome_of_occursIn "LIMIT".data q (by decide) hlm
          rcases hio : findCIIdx "LIMIT".data q with _ | i
          · rw [hio] at hfi; simp at hfi
          · apply occursIn_of_eq_parts _ _
              (q.take i ++ (if occursIn "WHERE".data (upper q) then " AND".data
                else " WHERE".data))
              (" LIMIT".data ++ (q.drop i).drop ("LIMIT".data).length)
            simp [addRowLevelSecurity, constructorConfig, h, hdup, hob, hlm, renderUserId,
              replaceFirstCI, hio, List.append_assoc]
            rw [dollarSubst_no_dollar]
            · simp [List.append_assoc]
            · rcases hw : occursIn "WHERE".data (upper q) with _ | _ <;> simp [hw, hds]
      · -- splice before ORDER BY
        have hfi := findCIIdx_isSome_of_occursIn "ORDER BY".data q (by decide) hob
        rcases hio : findCIIdx "ORDER BY".data q with _ | i
        · rw [hio] at hfi; simp at hfi
        · apply occursIn_of_eq_parts _ _
            (q.take i ++ (if occursIn "WHERE".data (upper q) then " AND".data
              else " WHERE".data))
            (" ORDER BY".data ++ (q.drop i).drop ("ORDER BY".data).length)
          simp [addRowLevelSecurity, constructorConfig, h, hdup, hob, renderUserId,
            replaceFirstCI, hio, List.append_assoc]
          rw [dollarSubst_no_dollar]
          · simp [List.append_assoc]
          · rcases hw : occursIn "WHERE".data (upper q) with _ | _ <;> simp [hw, hds] )

/-- C1 witness: the amended theorem instantiated at `SELECT * FROM orders`
(the append placement, with the exact output) and at
`SELECT * FROM orders ORDER BY id` (the splice-before-ORDER-BY placement),
both with the id `abc-123`. -/
theorem rls_string_inlined_witness :
    addRowLevelSecurity (constructorConfig {}) "SELECT * FROM orders".data
        (some { userId := .str "abc-123".data, role := "user".data })
      = "SELECT * FROM orders WHERE user_id = 'abc-123'".data
    ∧ occursIn (" user_id = ".data ++ ('\'' :: ("abc-123".data ++ [ '\'' ])))
        (addRowLevelSecurity (constructorConfig {})
          "SELECT * FROM orders ORDER BY id".data
          (some { userId := .str "abc-123".data, role := "user".data })) = true := by
  constructor
  · have h := (rls_string_inlined "SELECT * FROM orders".data "abc-123".data
      "user".data (Or.inl (by decide)) (by decide)).1 (by decide) (by decide)
    exact h.trans (by decide)
  · exact (rls_string_inlined "SELECT * FROM orders ORDER BY id".data "abc-123".data
      "user".data (Or.inl (by decide)) (by decide)).2.1 (by decide)

theorem hasPfx_backtick_false (op' : Str) (c : Char) (s : Str) (hc : c ≠ '`') :
    hasPfx ('`' :: op') (c :: s) = false := by
  have h0 : ('`' == c) = false := beq_eq_false_iff_ne.mpr (Ne.symm hc)
  simp [hasPfx, h0]

theorem extractTagged_skip (op' a r : Str) (ha : ∀ c ∈ a, c ≠ '`') :
    extractTagged ('`' :: op') (a ++ r) = extractTagged ('`' :: op') r := by
  induction a with
  | nil => rfl
  | cons c t ih =>
    have hc : c ≠ '`' := ha c (List.mem_cons_self c t)
    have hp : hasPfx ('`' :: op') (c :: (t ++ r)) = false :=
      hasPfx_backtick_false op' c (t ++ r) hc
    have ht : ∀ x ∈ t, x ≠ '`' := fun x hx => ha x (List.mem_cons_of_mem c hx)
    calc extractTagged ('`' :: op') ((c :: t) ++ r)
        = extractTagged ('`' :: op') (t ++ r) := by simp [extractTagged, hp]
      _ = extractTagged ('`' :: op') r := ih ht

theorem takeUntilFence_closes (i b : Str) (hi : ∀ c ∈ i, c ≠ '`') :
    takeUntilFence (i ++ '`' :: '`' :: '`' :: b) = some i := by
  induction i with
  | nil =>
    have hp : hasPfx "```".data ('`' :: '`' :: '`' :: b) = true := by
      have h3 : "```".data = ['`', '`', '`'] := rfl
      simp [h3, hasPfx]
    simp [takeUntilFence, hp]
  | cons c t ih =>
    have hc : c ≠ '`' := hi c (List.mem_cons_self c t)
    have hp : hasPfx "```".data (c :: (t ++ '`' :: '`' :: '`' :: b)) = false := by
      have h3 : "```".data = '`' :: ['`', '`'] := rfl
      rw [h3]
      exact hasPfx_backtick_false _ c _ hc
    have ht : ∀ x ∈ t, x ≠ '`' := fun x hx => hi x (List.mem_cons_of_mem c hx)
    simp [takeUntilFence, hp, ih ht]

theorem extractTagged_none_of_no_backtick (op' s : Str) (hs : ∀ c ∈ s, c ≠ '`') :
    extractTagged ('`' :: op') s = none := by
  induction s with
  | nil => rfl
  | cons c t ih =>
    have hc : c ≠ '`' := hs c (List.mem_cons_self c t)
    have hp := hasPfx_backtick_false op' c t hc
    have ht : ∀ x ∈ t, x ≠ '`' := fun x hx => hs x (List.mem_cons_of_mem c hx)
    simp [extractTagged, hp, ih ht]

theorem extractTagged_hit (op' r i : Str) (hr : takeUntilFence r = some i) :
    extractTagged ('`' :: op') (('`' :: op') ++ r) = some i := by
  have hdrop : List.drop op'.length (op' ++ r) = r := List.drop_left op' r
  have hp : hasPfx ('`' :: op') ('`' :: (op' ++ r)) = true :=
    hasPfx_append_self ('`' :: op') r
  show extractTagged ('`' :: op') ('`' :: (op' ++ r)) = some i
  rw [extractTagged, hp]
  simp [hdrop, hr]

/-- C7 counterexample: a fenced block carrying a non-sql language tag is
not extracted — the text comes back unchanged rather than as the block's
trimmed interior — because the generic-block regex requires the opening
fence to be followed directly by a newline. -/
theorem extractFromMarkdown_counterexample :
    extractFromMarkdown "```js\nSELECT 1\n```".data = "```js\nSELECT 1\n```".data
    ∧ "```js\nSELECT 1\n```".data ≠ "SELECT 1".data := by
  exact ⟨by decide, by decide⟩

/-- C7 (amended): `extractFromMarkdown` returns the trimmed interior of the
first sql-tagged fenced block when one exists; otherwise, when the text
contains a fence opened by three backticks followed directly by a newline
(an untagged block — a block with any other language tag does not count),
it returns the trimmed interior of the first such block; otherwise the text
unchanged.  Stated for texts whose surrounding pieces contain no stray
backticks, which pins the blocks down as the first ones. -/
theorem extractFromMarkdown_firstBlock :
    (∀ a i b : Str, (∀ c ∈ a, c ≠ '`') → (∀ c ∈ i, c ≠ '`') →
      extractFromMarkdown (a ++ ("```sql\n".data ++ (i ++ ("```".data ++ b))))
        = trimStr i)
    ∧ (∀ a i b : Str, (∀ c ∈ a, c ≠ '`') → (∀ c ∈ i, c ≠ '`') →
        extractTagged "```sql\n".data
            (a ++ ("```\n".data ++ (i ++ ("```".data ++ b)))) = none →
        extractFromMarkdown (a ++ ("```\n".data ++ (i ++ ("```".data ++ b))))
          = trimStr i)
    ∧ (∀ t : Str, (∀ c ∈ t, c ≠ '`') → extractFromMarkdown t = t) := by
  refine ⟨?_, ?_, ?_⟩
  · intro a i b ha hi
    have e1 : extractTagged "```sql\n".data
        (a ++ ("```sql\n".data ++ (i ++ ("```".data ++ b)))) = some i := by
      have hsql : "```sql\n".data = '`' :: "``sql\n".data := rfl
      rw [hsql, extractTagged_skip _ a _ ha]
      apply extractTagged_hit
      have h3 : "```".data ++ b = '`' :: '`' :: '`' :: b := rfl
      rw [h3]
      exact takeUntilFence_closes i b hi
    simp only [extractFromMarkdown]
    rw [e1]
  · intro a i b ha hi hnone
    have e2 : extractTagged "```\n".data
        (a ++ ("```\n".data ++ (i ++ ("```".data ++ b)))) = some i := by
      have huntag : "```\n".data = '`' :: "``\n".data := rfl
      rw [huntag, extractTagged_skip _ a _ ha]
      apply extractTagged_hit
      have h3 : "```".data ++ b = '`' :: '`' :: '`' :: b := rfl
      rw [h3]
      exact takeUntilFence_closes i b hi
    simp only [extractFromMarkdown]
    rw [hnone, e2]
  · intro t ht
    have h1 : extractTagged "```sql\n".data t = none := by
      have hsql : "```sql\n".data = '`' :: "``sql\n".data := rfl
      rw [hsql]
      exact extractTagged_none_of_no_backtick _ t ht
    have h2 : extractTagged "```\n".data t = none := by
      have huntag : "```\n".data = '`' :: "``\n".data := rfl
      rw [huntag]
      exact extractTagged_none_of_no_backtick _ t ht
    simp only [extractFromMarkdown]
    rw [h1, h2]

end TextDbQueryAI
